import Mathlib

/-!
Shallow embedding of `stocklook/crypto/gdax/feeds/market_maker.py`
(classes `GdaxMMOrder` and `GdaxMarketMaker`).

Modelling conventions:
* Prices, sizes and balances are rationals (`ℚ`); Python's `round(x, 2)`
  is modelled by `round2` (round half up to two decimals).
* The book feed and the exchange are explicit read-only context
  (`ShiftCtx`): the current ticker, the touch prices of the cached book
  snapshot, the quote-currency balance, the exchange's open-orders
  listing, and the exchange's responses to cancels and fill queries.
* Python `while` loops are modelled with an explicit fuel argument; a
  loop that does not finish within its fuel yields `none` (and stateful
  callers surface `PyErr.nonTermination`).
* Python exceptions are modelled with `Except PyErr`; methods that
  mutate `self` before raising return the mutated state next to the
  error, mirroring the partially-updated object state after a raise.
-/

inductive Side : Type where
  | buy : Side
  | sell : Side
deriving DecidableEq, BEq, Repr

/-- Python `round(x, 2)`: two-decimal rounding (modelled as round half up). -/
def round2 (q : ℚ) : ℚ := ((round (q * 100) : ℤ) : ℚ) / 100

/-- `GdaxMMOrder`: side, price, size and the optional opposite order
(`_op_order`, set by `__init__` from the `op_order` keyword or later by
`register_op_order`). -/
inductive MMOrder : Type where
  | mk : Side → ℚ → ℚ → Option MMOrder → MMOrder

def MMOrder.side : MMOrder → Side
  | .mk s _ _ _ => s

def MMOrder.price : MMOrder → ℚ
  | .mk _ p _ _ => p

def MMOrder.size : MMOrder → ℚ
  | .mk _ _ z _ => z

def MMOrder.opOrder : MMOrder → Option MMOrder
  | .mk _ _ _ op => op

/-- `order.price = ...` assignment. -/
def MMOrder.withPrice : MMOrder → ℚ → MMOrder
  | .mk s _ z op, p => .mk s p z op

/-- `self._op_order = ...` assignment. -/
def MMOrder.withOp : MMOrder → Option MMOrder → MMOrder
  | .mk s p z _, op => .mk s p z op

/-- The market maker's `self._orders` dict (`order_id → order`). -/
abbrev Registry := List (ℕ × MMOrder)

def regLookup (r : Registry) (k : ℕ) : Option MMOrder :=
  (r.find? (fun kv => kv.1 == k)).map (fun kv => kv.2)

def regErase (r : Registry) (k : ℕ) : Registry :=
  r.filter (fun kv => !(kv.1 == k))

/-- `dict[k] = o`: replace the value under an existing key, else append. -/
def regInsert (r : Registry) (k : ℕ) (o : MMOrder) : Registry :=
  if (r.map (fun kv => kv.1)).contains k then
    r.map (fun kv => if kv.1 == k then (k, o) else kv)
  else r ++ [(k, o)]

/-- `GdaxMarketMaker.buy_orders`. -/
def buyOrders (r : Registry) : Registry :=
  r.filter (fun kv => kv.2.side == Side.buy)

/-- `GdaxMarketMaker.sell_orders`. -/
def sellOrders (r : Registry) : Registry :=
  r.filter (fun kv => kv.2.side == Side.sell)

def buyCount (r : Registry) : ℕ := (buyOrders r).length

def sellCount (r : Registry) : ℕ := (sellOrders r).length

/-- Constructor-time configuration of `GdaxMarketMaker`. -/
structure MMConfig where
  max_spread : ℚ
  min_spread : ℚ
  stop_pct : ℚ
  spend_pct : ℚ
  max_open_buys : ℕ
  max_open_sells : ℕ
  aggressive : Bool
  manage_existing_orders : Bool

/-- An entry of the exchange's `get_orders(status='open')` listing. -/
structure ExchOrder where
  id : ℕ
  side : Side
  price : ℚ
  size : ℚ

/-- Exceptions of the Python code. `nonTermination` is a model artifact:
it marks a `while` loop that did not finish within its fuel. -/
inductive PyErr : Type where
  | keyError : PyErr
  | attributeError : PyErr
  | assertionError : PyErr
  | indexError : PyErr
  | apiError : PyErr
  | cancellationError : PyErr
  | orderNotFilled : PyErr
  | nonTermination : PyErr
deriving DecidableEq, Repr

/-- Outcome of `GdaxOrder.cancel()` as seen by `cancel_order`. -/
inductive CancelResp : Type where
  | ok : List (Option ℕ) → CancelResp
  | errDone : CancelResp
  | errNotFound : CancelResp
  | errOther : CancelResp
  | errCancellation : CancelResp

/-- Read-only context: book feed values and exchange behaviour. -/
structure ShiftCtx where
  open_orders : List ExchOrder
  ticker : Option ℚ
  highest_bid : ℚ
  lowest_ask : ℚ
  balance : ℚ
  cancel_resp : ℕ → CancelResp
  is_filled : ℕ → Bool
  fuel : ℕ

/-- Mutable state of `GdaxMarketMaker`: `_orders`, `_fills`,
`_last_ticker` and the next exchange-assigned order id. -/
structure MMState where
  registry : Registry
  fills : Registry
  lastTicker : Option ℚ
  nextId : ℕ

/-- `GdaxMMOrder.stop_amount`: `None` unless `stop_pct` is truthy, an
opposite order exists and the side is not `'buy'`; otherwise
`op_price - op_price * stop_pct`. -/
def stop_amount (cfg : MMConfig) (o : MMOrder) : Option ℚ :=
  if cfg.stop_pct = 0 then none
  else
    match o.opOrder with
    | none => none
    | some op => if o.side == Side.buy then none else some (op.price - op.price * cfg.stop_pct)

/-- `GdaxMMOrder.get_pnl(price=None)`. -/
def get_pnl (o : MMOrder) (priceArg : Option ℚ) : Option ℚ :=
  match o.opOrder with
  | none => none
  | some op =>
    let price := priceArg.getD o.price
    if o.side == Side.buy then some (round2 (op.size * op.price - o.size * price))
    else some (round2 (o.size * price - op.size * op.price))

/-- `GdaxMMOrder.get_amount_above_spread(spread=None, bid=None, ask=None)`;
`bid`/`ask` default to the book snapshot's highest bid / lowest ask,
passed here explicitly. -/
def get_amount_above_spread (cfg : MMConfig) (bid ask : ℚ) (o : MMOrder)
    (spreadArg : Option ℚ) : ℚ :=
  let spread := spreadArg.getD cfg.max_spread
  if o.side == Side.sell then round2 (o.price - (bid + spread))
  else round2 (o.price - (ask - spread))

/-- `GdaxMMOrder.get_price_adjusted_to_spread`: Python's falsy tests
(`if not amount_above`, `if not spread`, `if amount_above`) treat both
`None` and `0` as absent. -/
def get_price_adjusted_to_spread (cfg : MMConfig) (bid ask : ℚ) (o : MMOrder)
    (spreadArg : Option ℚ) (aggressive : Bool) (amountArg : Option ℚ)
    (factor : ℚ) (min_profit : Option ℚ) : ℚ :=
  let amount_above :=
    if amountArg.getD 0 = 0 then
      let spread :=
        if spreadArg.getD 0 = 0 then
          (if aggressive then cfg.min_spread else cfg.max_spread)
        else spreadArg.getD 0
      get_amount_above_spread cfg bid ask o (some spread)
    else amountArg.getD 0
  let price :=
    if amount_above ≠ 0 then round2 (o.price - amount_above * factor)
    else round2 o.price
  match o.opOrder, min_profit with
  | some op, some mp =>
    let min_price := op.price + mp
    if price < min_price then min_price else price
  | _, _ => price

/-- The peer-price list of `get_price_adjusted_to_other_prices` (source
lines 181-189): when no explicit list is given the source reads
`self.m.buy_orders` for BOTH sides (kept faithfully), sorts the prices,
then drops entries equal to `self.price`. -/
def peerPrices (r : Registry) (o : MMOrder) (otherArg : Option (List ℚ)) : List ℚ :=
  let base : List ℚ :=
    match otherArg with
    | some l => l
    | none =>
      let vals : Registry := if o.side == Side.buy then buyOrders r else buyOrders r
      (vals.map (fun kv => kv.2.price)).insertionSort (fun a b => a ≤ b)
  base.filter (fun x => decide (x ≠ o.price))

/-- The inner `while check_p:` loop of `adj_price`: both the increment
and the decrement branch of the source ADD `step`; the candidate is
rounded to two decimals each pass and the window test inside the loop is
inclusive (`>=`/`<=`). `none` when the fuel runs out. -/
def adjLoop (other_prices : List ℚ) (step : ℚ) (increment : Bool) :
    ℕ → ℚ → Option ℚ
  | 0, _ => none
  | fuel + 1, p =>
    let p1 := if increment then p + step else p + step
    let p2 := round2 p1
    if ∃ x ∈ other_prices, p2 - step * 2 ≤ x ∧ x ≤ p2 + step * 2 then
      adjLoop other_prices step increment fuel p2
    else some p2

/-- `adj_price` (nested in `get_price_adjusted_to_other_prices`): the
entry test uses a strict window (`>`/`<`) on the unrounded candidate. -/
def adj_price (other_prices : List ℚ) (step : ℚ) (increment : Bool)
    (fuel : ℕ) (p : ℚ) : Option ℚ :=
  if ∃ x ∈ other_prices, p - step * 2 < x ∧ x < p + step * 2 then
    adjLoop other_prices step increment fuel (round2 p)
  else some (round2 p)

/-- `GdaxMMOrder.get_price_adjusted_to_other_prices`. -/
def get_price_adjusted_to_other_prices (cfg : MMConfig) (bid ask : ℚ)
    (r : Registry) (o : MMOrder) (otherArg : Option (List ℚ))
    (aggressive : Bool) (step : ℚ) (min_profit : Option ℚ) (fuel : ℕ) :
    Option ℚ :=
  let other_prices := peerPrices r o otherArg
  let my_min := get_price_adjusted_to_spread cfg bid ask o none aggressive none (4/5) min_profit
  match other_prices with
  | [] => some my_min
  | x :: xs =>
    let min_price := xs.foldl min x
    let max_price := xs.foldl max x
    let max_and_step := max_price + step
    let min_and_step := min_price - step
    match o.side with
    | .buy =>
      if aggressive then
        -- the two branches of the source are identical
        if my_min ≥ max_and_step then adj_price other_prices step true fuel my_min
        else adj_price other_prices step true fuel my_min
      else adj_price other_prices step false fuel my_min
    | .sell =>
      if aggressive then
        if my_min ≥ min_and_step then adj_price other_prices step false fuel my_min
        else adj_price other_prices step true fuel my_min
      else adj_price other_prices step true fuel my_min

/-- The `while pnl < min_profit: price += 0.01` loop of
`get_price_adjusted_to_profit_target`: the source never recomputes `pnl`
inside the loop, so the condition is loop-invariant (kept faithfully). -/
def profitTargetLoop (pnl min_profit : ℚ) : ℕ → ℚ → Option ℚ
  | 0, price => if pnl < min_profit then none else some price
  | fuel + 1, price =>
    if pnl < min_profit then profitTargetLoop pnl min_profit fuel (price + 1/100)
    else some price

/-- `GdaxMMOrder.get_price_adjusted_to_profit_target(min_profit=0.01)`. -/
def get_price_adjusted_to_profit_target (o : MMOrder) (min_profit : ℚ)
    (fuel : ℕ) : Option ℚ :=
  let price := o.price
  match get_pnl o (some price) with
  | none => some o.price
  | some pnl => profitTargetLoop pnl min_profit fuel price

/-- `GdaxMMOrder.get_other_order_prices(side)`: prices (rounded 2dp) of
tracked orders of the GIVEN side (this helper does filter by side). -/
def get_other_order_prices (r : Registry) (side : Side) : List ℚ :=
  (r.filter (fun kv => kv.2.side == side)).map (fun kv => round2 kv.2.price)

/-- The `while price in o_prices:` loop of
`get_price_adjusted_to_ticker`: buys step down, sells step up by
`spread_add`. -/
def tickerLoop (o_prices : List ℚ) (spread_add : ℚ) (side : Side) :
    ℕ → ℚ → Option ℚ
  | 0, price => if price ∈ o_prices then none else some price
  | fuel + 1, price =>
    if price ∈ o_prices then
      tickerLoop o_prices spread_add side fuel
        (if side == Side.buy then price - spread_add else price + spread_add)
    else some price

/-- `GdaxMMOrder.get_price_adjusted_to_ticker(price=None, ticker=None,
aggressive=True, adjust_vs_open=True)`; the `adjust_vs_open` parameter is
never read in the source body and is omitted here. -/
def get_price_adjusted_to_ticker (cfg : MMConfig) (r : Registry) (o : MMOrder)
    (priceArg : Option ℚ) (ticker : Option ℚ) (aggressive : Bool) (fuel : ℕ) :
    Option ℚ :=
  let price0 := priceArg.getD o.price
  let spread := if aggressive then cfg.min_spread else cfg.max_spread
  let price1 :=
    match ticker with
    | none => price0
    | some ticker_price =>
      if o.side == Side.buy then
        (if price0 ≥ ticker_price - spread then ticker_price - spread else price0)
      else
        (if price0 ≤ ticker_price + spread then ticker_price + spread else price0)
  let o_prices := get_other_order_prices r o.side
  let spread_add := round2 (spread / 2)
  tickerLoop o_prices spread_add o.side fuel price1

/-- `GdaxMMOrder.register_op_order(order)`: same side with a prior
opposite inherits that opposite; a cross-side order is stored directly;
same side without a prior opposite raises `AttributeError`. -/
def register_op_order (o other : MMOrder) : Except PyErr MMOrder :=
  if other.side == o.side && !other.opOrder.isNone then .ok (o.withOp other.opOrder)
  else if !(other.side == o.side) then .ok (o.withOp (some other))
  else .error .attributeError

/-- `GdaxMarketMaker.lowest_open_order`: the tracked order of minimum
price (first one on ties, as Python `min`). -/
def lowest_open_order (r : Registry) : Option MMOrder :=
  match r with
  | [] => none
  | kv :: rest =>
    some ((rest.map (fun e => e.2)).foldl (fun a b => if b.price < a.price then b else a) kv.2)

/-- `GdaxMarketMaker.position_size`. -/
def position_size (cfg : MMConfig) (balance lowest_ask : ℚ) (r : Registry) : ℚ :=
  let spend_avail := balance * cfg.spend_pct
  let size_avail := spend_avail / lowest_ask
  if size_avail > 1/100 ∧ buyCount r < cfg.max_open_buys ∧ sellCount r < cfg.max_open_sells then
    size_avail
  else 0

/-- Result of `place_order`: `skipped` models the `return None` path
(buy size below 0.01), `diverged` an inner loop running out of fuel. -/
inductive PlaceResult : Type where
  | skipped : PlaceResult
  | diverged : PlaceResult
  | placed : MMOrder → PlaceResult

/-- `order.post()` followed by `self._orders[order.id] = order`: the
exchange assigns the next fresh id and the order is registered. -/
def postOrder (st : MMState) (o : MMOrder) : PlaceResult × MMState :=
  (.placed o, { st with registry := regInsert st.registry st.nextId o, nextId := st.nextId + 1 })

/-- `GdaxMarketMaker.place_order`. -/
def place_order (cfg : MMConfig) (ctx : ShiftCtx) (st : MMState)
    (price size : ℚ) (side : Side) (op_order : Option MMOrder)
    (adjust_vs_open adjust_vs_wall check_size check_ticker aggressive : Bool) :
    PlaceResult × MMState :=
  -- the adjust_vs_wall branch reads lowest_open_order and then does
  -- nothing (its body is `pass` in the source)
  let _o_order := if adjust_vs_wall then lowest_open_order st.registry else none
  let sized : Option ℚ :=
    if check_size && (side == Side.buy) then
      let pos_size := position_size cfg ctx.balance ctx.lowest_ask st.registry
      if pos_size < 1/100 then none
      else some (if size > pos_size then pos_size else size)
    else some size
  match sized with
  | none => (.skipped, st)
  | some size1 =>
    let order := MMOrder.mk side price size1 op_order
    let afterOpen : Option MMOrder :=
      if adjust_vs_open then
        match get_price_adjusted_to_other_prices cfg ctx.highest_bid ctx.lowest_ask
            st.registry order none aggressive (round2 (cfg.max_spread / 2))
            (some cfg.min_spread) ctx.fuel with
        | none => none
        | some open_price =>
          -- `if open_price:` truthy test
          some (if open_price ≠ 0 then order.withPrice open_price else order)
      else some order
    match afterOpen with
    | none => (.diverged, st)
    | some order1 =>
      if check_ticker then
        match get_price_adjusted_to_ticker cfg st.registry order1 none ctx.ticker
            aggressive ctx.fuel with
        | none => (.diverged, st)
        | some tick_price =>
          postOrder st (if tick_price ≠ 0 then order1.withPrice tick_price else order1)
      else postOrder st order1

/-- `GdaxMarketMaker.handle_fill(order_id, replace=True)`. The error
cases return the state as mutated up to the raise. `getattr(order,
'pnl', None)` is always `None` (the class has no `pnl` attribute), so
the PnL logging branch has no effect. -/
def handle_fill (cfg : MMConfig) (ctx : ShiftCtx) (st : MMState)
    (order_id : ℕ) (replace : Bool) : Except PyErr (Option MMOrder) × MMState :=
  match regLookup st.registry order_id with
  | none => (.error .keyError, st)
  | some order =>
    let st1 := { st with registry := regErase st.registry order_id }
    if ctx.is_filled order_id then
      let st2 := { st1 with fills := regInsert st1.fills order_id order }
      if replace then
        let spread := if cfg.aggressive then cfg.min_spread else cfg.max_spread
        let maxed : Bool :=
          if order.side == Side.buy then false
          else decide (buyCount st2.registry > cfg.max_open_buys ∨
                       sellCount st2.registry > cfg.max_open_sells)
        let new_side := if order.side == Side.buy then Side.sell else Side.buy
        let new_price := if order.side == Side.buy then order.price + spread else order.price - spread
        if maxed then (.ok none, st2)
        else
          match place_order cfg ctx st2 new_price order.size new_side (some order)
              true true true true cfg.aggressive with
          | (.placed o, st3) => (.ok (some o), st3)
          | (.skipped, st3) => (.ok none, st3)
          | (.diverged, st3) => (.error .nonTermination, st3)
      else (.ok none, st2)
    else (.error .orderNotFilled, st1)

/-- `GdaxMarketMaker.cancel_order(order_id)`: pops with a `None`
default, so a second cancel of the same id calls `.cancel()` on `None`
and the resulting `AttributeError` is logged and re-raised; an exchange
`done` re-inserts and delegates to `handle_fill`; `not found` is treated
as success. -/
def cancel_order (cfg : MMConfig) (ctx : ShiftCtx) (st : MMState)
    (order_id : ℕ) : Except PyErr (Option MMOrder) × MMState :=
  match regLookup st.registry order_id with
  | none => (.error .attributeError, st)
  | some order =>
    let st1 := { st with registry := regErase st.registry order_id }
    match ctx.cancel_resp order_id with
    | .ok ids =>
      match ids.head? with
      | none => (.error .indexError, st1)
      | some i =>
        -- `assert check[0] in (order_id, None)`
        if i = some order_id ∨ i = none then (.ok (some order), st1)
        else (.error .assertionError, st1)
    | .errCancellation => (.error .cancellationError, st1)
    | .errDone =>
      let st2 := { st1 with registry := regInsert st1.registry order_id order }
      match handle_fill cfg ctx st2 order_id true with
      | (.error e, st3) => (.error e, st3)
      | (.ok _, st3) => (.ok (some order), st3)
    | .errNotFound => (.ok (some order), st1)
    | .errOther => (.error .apiError, st1)

/-- The `[self.handle_fill(o) for o in filled]` pass of the `orders`
property: the first raise aborts the remaining fills. -/
def syncFills (cfg : MMConfig) (ctx : ShiftCtx) :
    List ℕ → MMState → Except PyErr Unit × MMState
  | [], st => (.ok (), st)
  | k :: ks, st =>
    match handle_fill cfg ctx st k true with
    | (.error e, st1) => (.error e, st1)
    | (.ok _, st1) => syncFills cfg ctx ks st1

/-- The `manage_existing_orders` adoption pass of the `orders`
property. -/
def adoptOrders (st : MMState) (new_keys : List ℕ) (open_orders : List ExchOrder) :
    MMState :=
  open_orders.foldl
    (fun s od =>
      if new_keys.contains od.id then
        { s with registry := regInsert s.registry od.id (MMOrder.mk od.side od.price od.size none) }
      else s)
    st

/-- The `GdaxMarketMaker.orders` property: reconcile the registry with
the exchange's open-orders listing (ids gone from the exchange are
handled as fills; unknown exchange orders are adopted when
`manage_existing_orders`). -/
def ordersSync (cfg : MMConfig) (ctx : ShiftCtx) (st : MMState) :
    Except PyErr Unit × MMState :=
  let open_ids := ctx.open_orders.map (fun od => od.id)
  let filled := (st.registry.map (fun kv => kv.1)).filter (fun k => !(open_ids.contains k))
  match syncFills cfg ctx filled st with
  | (.error e, st1) => (.error e, st1)
  | (.ok _, st1) =>
    if cfg.manage_existing_orders then
      let existing := st1.registry.map (fun kv => kv.1)
      let new_keys := open_ids.filter (fun k => !(existing.contains k))
      (.ok (), adoptOrders st1 new_keys ctx.open_orders)
    else (.ok (), st1)

/-- `if stop and stop >= p:` — truthy test on `stop_amount`. -/
def stopHit (stop : Option ℚ) (p : ℚ) : Bool :=
  match stop with
  | none => false
  | some s => decide (s ≠ 0 ∧ s ≥ p)

/-- The shared cancel-and-replace step of `shift_orders`: cancel the
tracked order, then `place_order` a same-side replacement carrying the
cancelled order as `op_order` with `adjust_vs_open=False` (all other
flags at their defaults except `check_size`). -/
def cancelAndReplace (cfg : MMConfig) (ctx : ShiftCtx) (st : MMState)
    (order_id : ℕ) (order : MMOrder) (new_price : ℚ) (check_size : Bool) :
    Except PyErr (Option MMOrder) × MMState :=
  match cancel_order cfg ctx st order_id with
  | (.error e, st1) => (.error e, st1)
  | (.ok _, st1) =>
    match place_order cfg ctx st1 new_price order.size order.side (some order)
        false true check_size true true with
    | (.placed o, st2) => (.ok (some o), st2)
    | (.skipped, st2) => (.ok none, st2)
    | (.diverged, st2) => (.error .nonTermination, st2)

/-- The per-order loop of `shift_orders` over the registry snapshot.
`new_orders` collects `place_order` results (`None` included, as the
source appends unconditionally); `cancels` mirrors the source's local
`cancels` list, which is appended to for stopped sells and never
consumed. -/
def shiftFold (cfg : MMConfig) (ctx : ShiftCtx) (exclude : List ℕ)
    (p spread : ℚ) :
    List (ℕ × MMOrder) → MMState → List (Option MMOrder) → List (ℕ × ℚ) →
    Except PyErr (List (Option MMOrder)) × MMState
  | [], st, new_orders, _cancels => (.ok new_orders, st)
  | (order_id, order) :: rest, st, new_orders, cancels =>
    if order_id ∈ exclude then
      shiftFold cfg ctx exclude p spread rest st new_orders cancels
    else if order.side == Side.sell && stopHit (stop_amount cfg order) p then
      -- first sell stop check: records (order_id, p + 0.01) in the
      -- unused `cancels` list and `continue`s — the order is untouched
      shiftFold cfg ctx exclude p spread rest st new_orders (cancels ++ [(order_id, p + 1/100)])
    else
      let min_price := get_price_adjusted_to_spread cfg ctx.highest_bid ctx.lowest_ask
        order none true none (4/5) (some spread)
      let max_price := get_price_adjusted_to_spread cfg ctx.highest_bid ctx.lowest_ask
        order none false none (4/5) (some spread)
      let _min_diff := round2 (order.price - min_price)
      let max_diff := round2 (max_price - order.price)
      match get_price_adjusted_to_other_prices cfg ctx.highest_bid ctx.lowest_ask
          st.registry order none cfg.aggressive (round2 (spread / 2)) (some (1/100))
          ctx.fuel with
      | none => (.error .nonTermination, st)
      | some check_price =>
        match order.side with
        | .buy =>
          if max_diff > spread ∧ check_price > order.price then
            match cancelAndReplace cfg ctx st order_id order check_price true with
            | (.error e, st1) => (.error e, st1)
            | (.ok o, st1) => shiftFold cfg ctx exclude p spread rest st1 (new_orders ++ [o]) cancels
          else shiftFold cfg ctx exclude p spread rest st new_orders cancels
        | .sell =>
          let stop := stop_amount cfg order
          let stop_sell := round2 (p + spread / 2)
          if stopHit stop p ∧ order.price > stop_sell then
            -- unreachable: the first sell stop check above already
            -- skipped every order with stopHit true
            match cancelAndReplace cfg ctx st order_id order stop_sell false with
            | (.error e, st1) => (.error e, st1)
            | (.ok o, st1) => shiftFold cfg ctx exclude p spread rest st1 (new_orders ++ [o]) cancels
          else
            if order.price > min_price ∧ order.price > check_price then
              match cancelAndReplace cfg ctx st order_id order check_price true with
              | (.error e, st1) => (.error e, st1)
              | (.ok o, st1) => shiftFold cfg ctx exclude p spread rest st1 (new_orders ++ [o]) cancels
            else shiftFold cfg ctx exclude p spread rest st new_orders cancels

/-- `GdaxMarketMaker.shift_orders(snap, exclude=None)`: returns `none`
for the early `return None` when the (reconciled) registry is empty;
otherwise the list of replacement results. A first observed ticker (or
an unchanged / zero ticker) produces no shifting. -/
def shift_orders (cfg : MMConfig) (ctx : ShiftCtx) (st : MMState)
    (exclude : List ℕ) : Except PyErr (Option (List (Option MMOrder))) × MMState :=
  match ordersSync cfg ctx st with
  | (.error e, st1) => (.error e, st1)
  | (.ok _, st1) =>
    if st1.registry.isEmpty then (.ok none, st1)
    else
      let p := match ctx.ticker with | some t => t | none => 0
      let lastFalsy : Bool := match st1.lastTicker with | none => true | some v => decide (v = 0)
      if lastFalsy && decide (p > 0) then (.ok (some []), { st1 with lastTicker := some p })
      else if (match st1.lastTicker with | none => true | some v => decide (v ≠ p)) && decide (p > 0) then
        let st2 := { st1 with lastTicker := some p }
        let spread := if cfg.aggressive then cfg.min_spread else cfg.max_spread
        match shiftFold cfg ctx exclude p spread st2.registry st2 [] [] with
        | (.error e, st3) => (.error e, st3)
        | (.ok new_orders, st3) => (.ok (some new_orders), st3)
      else (.ok (some []), st1)

/-- Spec invariant §8.1: every tracked order's opposite, when present,
has the other side. -/
def oppositeOkB (o : MMOrder) : Bool :=
  match o.opOrder with
  | none => true
  | some q => q.side != o.side

def regInvariant (r : Registry) : Prop :=
  ∀ kv ∈ r, oppositeOkB kv.2 = true

/-! Concrete fixtures used by the concrete checks below. `cfgA` mirrors
typical constructor arguments (`max_spread=0.10`, `min_spread=0.05`,
`stop_pct=0.05`, `spend_pct=0.01`); `cfgCap` uses `max_open_buys=3` as
in the `__main__` block. -/

def cfgA : MMConfig := ⟨1/10, 1/20, 1/20, 1/100, 6, 12, true, false⟩

def cfgCap : MMConfig := ⟨1/10, 1/20, 1/20, 1/100, 3, 27, true, false⟩

def dummyCancel : ℕ → CancelResp := fun _ => CancelResp.errNotFound

/-- Context whose exchange reports nothing filled and `not found` on
every cancel. -/
def ctxNF : ShiftCtx := ⟨[], none, 0, 0, 0, dummyCancel, fun _ => false, 0⟩

/-- Context whose exchange reports every order filled; ticker 105, book
touch 100.5 / 101, balance 10000. -/
def ctxFill : ShiftCtx := ⟨[], some 105, 1005/10, 101, 10000, dummyCancel, fun _ => true, 20⟩

/-- A buy at 300.00, size 0.1 (the paired opposite of `s305`). -/
def b300 : MMOrder := MMOrder.mk Side.buy 300 (1/10) none

/-- A sell at 305.00, size 0.1, opposite `b300`: `stop_amount = 285`. -/
def s305 : MMOrder := MMOrder.mk Side.sell 305 (1/10) (some b300)

/-- State tracking only the stopped sell, last ticker 300. -/
def stStop : MMState := ⟨[(1, s305)], [], some 300, 1⟩

/-- Context for the stop scenario: ticker dropped to 284.50. -/
def ctxStop : ShiftCtx :=
  ⟨[⟨1, Side.sell, 305, 1/10⟩], some (569/2), 1005/10, 101, 10000,
   fun _ => CancelResp.ok [some 1], fun _ => true, 20⟩

def st0 : MMState := ⟨[], [], none, 1⟩

/-- Context for seeding one buy: ticker 105, ask 101, balance 10000. -/
def ctxSeed : ShiftCtx :=
  ⟨[], some 105, 1005/10, 101, 10000, fun _ => CancelResp.ok [some 1], fun _ => true, 20⟩

/-- Same book, exchange listing the seeded order 1; ticker 300. -/
def ctxT300 : ShiftCtx :=
  ⟨[⟨1, Side.buy, 0, 0⟩], some 300, 1005/10, 101, 10000,
   fun _ => CancelResp.ok [some 1], fun _ => true, 20⟩

/-- Same but ticker moved to 105, triggering a shifting pass. -/
def ctxT105 : ShiftCtx :=
  ⟨[⟨1, Side.buy, 0, 0⟩], some 105, 1005/10, 101, 10000,
   fun _ => CancelResp.ok [some 1], fun _ => true, 20⟩

/-- Three open buys (the `max_open_buys` of `cfgCap`) and one sell. -/
def regCap : Registry :=
  [(1, MMOrder.mk Side.buy 100 1 none), (2, MMOrder.mk Side.buy 99 1 none),
   (3, MMOrder.mk Side.buy 98 1 none), (4, MMOrder.mk Side.sell 102 1 none)]

def stCap : MMState := ⟨regCap, [], none, 5⟩

/-- State tracking one order under id 7 (for the double-cancel check). -/
def stC3 : MMState := ⟨[(7, b300)], [], none, 1⟩

/-- Registry for the peer-separation check: the order itself at 100 and
a buy peer at 100.90. -/
def rW : Registry :=
  [(1, MMOrder.mk Side.buy 100 1 none), (2, MMOrder.mk Side.buy (1009/10) 1 none)]

/-- A sell at 100.10 with no opposite. -/
def cexSellOrder : MMOrder := MMOrder.mk Side.sell (1001/10) 1 none

/-- Registry holding that sell plus another sell at 100.02, no buys. -/
def cexRegistry : Registry :=
  [(1, cexSellOrder), (2, MMOrder.mk Side.sell (5001/50) 1 none)]

/-! ### Helper lemmas -/

theorem regLookup_regErase (r : Registry) (k : ℕ) :
    regLookup (regErase r k) k = none := by
  induction r with
  | nil => rfl
  | cons kv rest ih =>
    by_cases h : kv.1 = k
    · simp only [regErase, List.filter_cons, h] at ih ⊢
      simp [ih]
    · simp only [regErase, regLookup, List.filter_cons, List.find?_cons, h] at ih ⊢
      simp [ih, h]

theorem round2_round2 (q : ℚ) : round2 (round2 q) = round2 q := by
  unfold round2
  have h : ((round (q * 100) : ℤ) : ℚ) / 100 * 100 = ((round (q * 100) : ℤ) : ℚ) := by
    field_simp
  rw [h, round_intCast]

theorem round2_nonneg (q : ℚ) (h : 0 ≤ q) : 0 ≤ round2 q := by
  unfold round2
  have h1 : (0 : ℤ) ≤ round (q * 100) := by
    rw [round_eq]
    apply Int.floor_nonneg.mpr
    linarith
  positivity

theorem sell_beq_buy : (Side.sell == Side.buy) = false := by decide

theorem buy_beq_sell : (Side.buy == Side.sell) = false := by decide

theorem buy_beq_buy : (Side.buy == Side.buy) = true := by decide

theorem sell_beq_sell : (Side.sell == Side.sell) = true := by decide

theorem withOp_opOrder (o : MMOrder) (op : Option MMOrder) :
    (o.withOp op).opOrder = op := by
  cases o
  rfl

theorem withOp_side (o : MMOrder) (op : Option MMOrder) :
    (o.withOp op).side = o.side := by
  cases o
  rfl

/-- The loop condition of `profitTargetLoop` is invariant, so a start
below `min_profit` never finishes, whatever the fuel. -/
theorem profitTargetLoop_stuck (pnl min_profit : ℚ) (h : pnl < min_profit) :
    ∀ fuel price, profitTargetLoop pnl min_profit fuel price = none := by
  intro fuel
  induction fuel with
  | zero => intro price; simp [profitTargetLoop, h]
  | succ n ih => intro price; simp [profitTargetLoop, h, ih]

/-! ### Claim theorems -/

/-- Claim C8: for a sell with an opposite and `stop_pct > 0`,
`stop_amount = opposite.price * (1 - stop_pct)`; for a buy, for a
missing opposite, and for `stop_pct = 0` it is `None`. -/
theorem stop_amount_formula (cfg : MMConfig) (o : MMOrder) :
    (∀ op, o.side = Side.sell → o.opOrder = some op → 0 < cfg.stop_pct →
      stop_amount cfg o = some (op.price * (1 - cfg.stop_pct))) ∧
    (o.side = Side.buy → stop_amount cfg o = none) ∧
    (o.opOrder = none → stop_amount cfg o = none) ∧
    (cfg.stop_pct = 0 → stop_amount cfg o = none) := by
  refine ⟨?_, ?_, ?_, ?_⟩
  · intro op hside hop hpct
    have hne : cfg.stop_pct ≠ 0 := ne_of_gt hpct
    have hbeq : (o.side == Side.buy) = false := by rw [hside]; decide
    simp [stop_amount, hop, hbeq, hne]
    try ring
  · intro hside
    have hbeq : (o.side == Side.buy) = true := by rw [hside]; decide
    rcases hop : o.opOrder with _ | op
    · simp [stop_amount, hop]
    · simp [stop_amount, hop, hbeq]
  · intro hop
    simp [stop_amount, hop]
  · intro hpct
    simp [stop_amount, hpct]

/-- Witness for C8 at `s305` (sell 305, opposite buy 300, stop 5%). -/
theorem stop_amount_formula_witness :
    stop_amount cfgA s305 = some (300 * (1 - 1/20)) ∧
    stop_amount cfgA b300 = none :=
  ⟨(stop_amount_formula cfgA s305).1 b300 rfl rfl (by norm_num [cfgA]),
   (stop_amount_formula cfgA b300).2.1 rfl⟩

/-- Claim C10: `handle_fill` on a registered order the exchange does not
report filled raises, having already removed the order from the
registry and not inserted it into the fills table. -/
theorem handle_fill_unfilled_raises (cfg : MMConfig) (ctx : ShiftCtx) (st : MMState)
    (k : ℕ) (o : MMOrder) (replace : Bool)
    (h1 : regLookup st.registry k = some o)
    (h2 : ctx.is_filled k = false) :
    (handle_fill cfg ctx st k replace).1 = .error .orderNotFilled ∧
    regLookup (handle_fill cfg ctx st k replace).2.registry k = none ∧
    (handle_fill cfg ctx st k replace).2.fills = st.fills := by
  simp only [handle_fill, h1, h2]
  simp [regLookup_regErase]

/-- Witness for C10: order 1 tracked, exchange says not filled. -/
theorem handle_fill_unfilled_raises_witness :
    (handle_fill cfgA ctxNF ⟨[(1, b300)], [], none, 5⟩ 1 true).1 = .error .orderNotFilled ∧
    regLookup (handle_fill cfgA ctxNF ⟨[(1, b300)], [], none, 5⟩ 1 true).2.registry 1 = none ∧
    (handle_fill cfgA ctxNF ⟨[(1, b300)], [], none, 5⟩ 1 true).2.fills = [] :=
  handle_fill_unfilled_raises cfgA ctxNF ⟨[(1, b300)], [], none, 5⟩ 1 b300 true rfl rfl

/-- Claim C4 (code-bug evidence): on a sell whose PnL at the current
price is below `min_profit`, `get_price_adjusted_to_profit_target`
never terminates — the loop adds 0.01 to `price` but never recomputes
`pnl`.  Here: sell size 1 at 100 against an opposite buy size 1 at 100,
`min_profit = 0.01`, PnL 0. -/
theorem profit_target_never_terminates :
    ∀ fuel, get_price_adjusted_to_profit_target
      (MMOrder.mk Side.sell 100 1 (some (MMOrder.mk Side.buy 100 1 none))) (1/100) fuel
      = none := by
  intro fuel
  have hp : get_pnl (MMOrder.mk Side.sell 100 1 (some (MMOrder.mk Side.buy 100 1 none)))
      (some (MMOrder.price (MMOrder.mk Side.sell 100 1 (some (MMOrder.mk Side.buy 100 1 none)))))
      = some 0 := by
    norm_num [get_pnl, MMOrder.side, MMOrder.price, MMOrder.size, MMOrder.opOrder, round2]
  simp only [get_price_adjusted_to_profit_target, hp]
  exact profitTargetLoop_stuck 0 (1/100) (by norm_num) fuel _

/-- Claim C7 (amended): `place_order` performs no rounding of its own;
with `adjust_vs_open=False` and `check_ticker=False` a sell is posted at
exactly the caller's price. -/
theorem place_order_posts_price_verbatim (cfg : MMConfig) (ctx : ShiftCtx) (st : MMState)
    (price size : ℚ) (op : Option MMOrder) (check_size aggressive : Bool) :
    place_order cfg ctx st price size Side.sell op false true check_size false aggressive
      = (.placed (MMOrder.mk Side.sell price size op),
         { st with registry := regInsert st.registry st.nextId (MMOrder.mk Side.sell price size op),
                   nextId := st.nextId + 1 }) := by
  cases check_size <;> simp [place_order, postOrder, sell_beq_buy]

/-- Claim C7 counterexample: the non-two-decimal price 100.005 reaches
the exchange verbatim (`round2` would change it), refuting "every price
submitted by place_order is rounded to two decimals". -/
theorem place_order_unrounded_cex :
    (place_order cfgA ctxNF st0 (20001/200) 1 Side.sell none false true true false true).1
      = .placed (MMOrder.mk Side.sell (20001/200) 1 none) ∧
    round2 (20001/200) ≠ (20001/200 : ℚ) := by
  constructor
  · simp [place_order, postOrder, sell_beq_buy]
  · norm_num [round2, round_eq]

/-- Claim C3 (amended): the first cancel with an exchange `not found`
succeeds and removes the order; a second cancel of the same id leaves
the registry (and fills) unchanged but raises `AttributeError`, because
`pop` returned `None` and `.cancel()` is called on it. -/
theorem cancel_order_not_found_twice (cfg : MMConfig) (ctx : ShiftCtx) (st : MMState)
    (k : ℕ) (o : MMOrder)
    (h1 : regLookup st.registry k = some o)
    (h2 : ctx.cancel_resp k = CancelResp.errNotFound) :
    (cancel_order cfg ctx st k).1 = .ok (some o) ∧
    (cancel_order cfg ctx st k).2.registry = regErase st.registry k ∧
    (cancel_order cfg ctx st k).2.fills = st.fills ∧
    (cancel_order cfg ctx (cancel_order cfg ctx st k).2 k).1 = .error .attributeError ∧
    (cancel_order cfg ctx (cancel_order cfg ctx st k).2 k).2 = (cancel_order cfg ctx st k).2 := by
  have hfst : cancel_order cfg ctx st k
      = (.ok (some o), { st with registry := regErase st.registry k }) := by
    simp only [cancel_order, h1, h2]
  have hsnd : cancel_order cfg ctx ({ st with registry := regErase st.registry k }) k
      = (.error .attributeError, { st with registry := regErase st.registry k }) := by
    simp only [cancel_order, regLookup_regErase]
  rw [hfst]
  exact ⟨rfl, rfl, rfl, by rw [hsnd], by rw [hsnd]⟩

/-- Claim C3 counterexample: cancelling order 7 twice (exchange says
`not found`) raises `AttributeError` on the second call, refuting
"raises no exception on either call". -/
theorem cancel_twice_raises_cex :
    (cancel_order cfgA ctxNF stC3 7).1 = .ok (some b300) ∧
    (cancel_order cfgA ctxNF (cancel_order cfgA ctxNF stC3 7).2 7).1
      = .error PyErr.attributeError := by
  constructor
  · rfl
  · rfl

/-- Witness for the amended C3 at the concrete double-cancel state. -/
theorem cancel_order_not_found_twice_witness :
    (cancel_order cfgA ctxNF stC3 7).1 = .ok (some b300) ∧
    (cancel_order cfgA ctxNF stC3 7).2.registry = regErase stC3.registry 7 ∧
    (cancel_order cfgA ctxNF stC3 7).2.fills = stC3.fills ∧
    (cancel_order cfgA ctxNF (cancel_order cfgA ctxNF stC3 7).2 7).1 = .error .attributeError ∧
    (cancel_order cfgA ctxNF (cancel_order cfgA ctxNF stC3 7).2 7).2 = (cancel_order cfgA ctxNF stC3 7).2 :=
  cancel_order_not_found_twice cfgA ctxNF stC3 7 b300 rfl rfl

/-- `position_size` is 0 as soon as the open-buy count reaches
`max_open_buys`, so `place_order` with `check_size` skips a buy. -/
theorem place_order_skips_when_capped (cfg : MMConfig) (ctx : ShiftCtx) (st : MMState)
    (price size : ℚ) (op : Option MMOrder)
    (advo advw ct aggr : Bool)
    (hcap : buyCount st.registry = cfg.max_open_buys) :
    place_order cfg ctx st price size Side.buy op advo advw true ct aggr = (.skipped, st) := by
  have hpos : position_size cfg ctx.balance ctx.lowest_ask st.registry = 0 := by
    simp [position_size, hcap]
  norm_num [place_order, hpos, buy_beq_buy]

/-- Claim C9: when a filled sell is handled while the open-buy count
already equals `max_open_buys`, no replacement buy is registered (the
`place_order` call skips via `position_size = 0`) and the fills table
grows by exactly the filled order; and `position_size` is 0 whenever the
buy count equals `max_open_buys`, regardless of balance. -/
theorem handle_fill_capped_no_replacement (cfg : MMConfig) (ctx : ShiftCtx) (st : MMState)
    (k : ℕ) (o : MMOrder)
    (h1 : regLookup st.registry k = some o)
    (h2 : o.side = Side.sell)
    (h3 : ctx.is_filled k = true)
    (h4 : buyCount (regErase st.registry k) = cfg.max_open_buys) :
    (handle_fill cfg ctx st k true).1 = .ok none ∧
    (handle_fill cfg ctx st k true).2.registry = regErase st.registry k ∧
    (handle_fill cfg ctx st k true).2.fills = regInsert st.fills k o ∧
    (∀ balance ask r, buyCount r = cfg.max_open_buys → position_size cfg balance ask r = 0) := by
  have hpos : ∀ balance ask r, buyCount r = cfg.max_open_buys → position_size cfg balance ask r = 0 := by
    intro balance ask r hr
    simp [position_size, hr]
  have hbeq : (o.side == Side.buy) = false := by rw [h2]; decide
  have hev : handle_fill cfg ctx st k true
      = (.ok none, { st with registry := regErase st.registry k, fills := regInsert st.fills k o }) := by
    by_cases hm : sellCount (regErase st.registry k) > cfg.max_open_sells
    · have hmaxed : (decide (buyCount (regErase st.registry k) > cfg.max_open_buys ∨
          sellCount (regErase st.registry k) > cfg.max_open_sells)) = true := by
        rw [decide_eq_true_iff]
        exact Or.inr hm
      simp only [handle_fill, h1, h3, hbeq, hmaxed, if_true, if_false, Bool.false_eq_true]
    · have hmaxed : (decide (buyCount (regErase st.registry k) > cfg.max_open_buys ∨
          sellCount (regErase st.registry k) > cfg.max_open_sells)) = false := by
        rw [decide_eq_false_iff_not]
        push_neg
        exact ⟨by rw [h4], Nat.not_lt.mp hm⟩
      have hskip := place_order_skips_when_capped cfg ctx
          { st with registry := regErase st.registry k, fills := regInsert st.fills k o }
          (o.price - (if cfg.aggressive then cfg.min_spread else cfg.max_spread)) o.size (some o)
          true true true cfg.aggressive (by simpa using h4)
      simp only [handle_fill, h1, h3, hbeq, hmaxed, if_true, if_false, Bool.false_eq_true]
      simp only [hskip]
  rw [hev]
  exact ⟨rfl, rfl, rfl, hpos⟩

/-- Witness for C9: `cfgCap` has `max_open_buys = 3`, three buys are
open, the sell under id 4 fills. -/
theorem handle_fill_capped_no_replacement_witness :
    (handle_fill cfgCap ctxFill stCap 4 true).1 = .ok none ∧
    (handle_fill cfgCap ctxFill stCap 4 true).2.registry = regErase stCap.registry 4 ∧
    (handle_fill cfgCap ctxFill stCap 4 true).2.fills
      = regInsert stCap.fills 4 (MMOrder.mk Side.sell 102 1 none) ∧
    (∀ balance ask r, buyCount r = cfgCap.max_open_buys → position_size cfgCap balance ask r = 0) :=
  handle_fill_capped_no_replacement cfgCap ctxFill stCap 4 (MMOrder.mk Side.sell 102 1 none)
    rfl rfl rfl (by decide)

/-- For a buy the `while price in o_prices` loop only steps the price
down (by `spread_add ≥ 0`), so the result never exceeds the start. -/
theorem tickerLoop_buy_le (l : List ℚ) (sadd : ℚ) (hs : 0 ≤ sadd) :
    ∀ fuel p res, tickerLoop l sadd Side.buy fuel p = some res → res ≤ p := by
  intro fuel
  induction fuel with
  | zero =>
    intro p res h
    rw [tickerLoop] at h
    by_cases hm : p ∈ l
    · rw [if_pos hm] at h
      cases h
    · rw [if_neg hm] at h
      cases h
      exact le_refl _
  | succ n ih =>
    intro p res h
    rw [tickerLoop] at h
    by_cases hm : p ∈ l
    · rw [if_pos hm] at h
      have h2 := ih (p - sadd) res (by simpa using h)
      linarith
    · rw [if_neg hm] at h
      cases h
      exact le_refl _

/-- Claim C6: for a buy with a ticker present and a positive selected
spread, any price returned by `get_price_adjusted_to_ticker` is strictly
below the ticker price (the buy never crosses the book). -/
theorem ticker_adjusted_buy_below_ticker (cfg : MMConfig) (r : Registry) (o : MMOrder)
    (priceArg : Option ℚ) (t : ℚ) (aggressive : Bool) (fuel : ℕ) (res : ℚ)
    (h_side : o.side = Side.buy)
    (h_spread : 0 < (if aggressive then cfg.min_spread else cfg.max_spread))
    (h : get_price_adjusted_to_ticker cfg r o priceArg (some t) aggressive fuel = some res) :
    res < t := by
  have hbeq : (o.side == Side.buy) = true := by rw [h_side]; decide
  simp only [get_price_adjusted_to_ticker, hbeq, h_side, buy_beq_buy, if_true] at h
  set s := (if aggressive = true then cfg.min_spread else cfg.max_spread) with hs
  set p0 := priceArg.getD o.price with hp0
  have hp1 : (if p0 ≥ t - s then t - s else p0) ≤ t - s := by
    split
    · exact le_refl _
    · next hlt => linarith [lt_of_not_ge hlt]
  have hres := tickerLoop_buy_le (get_other_order_prices r Side.buy)
      (round2 (s / 2)) (round2_nonneg _ (by linarith)) fuel _ res h
  linarith

/-- Witness for C6: buy at 100, ticker 105, aggressive spread 0.05. -/
theorem ticker_adjusted_buy_below_ticker_witness :
    get_price_adjusted_to_ticker cfgA [] (MMOrder.mk Side.buy 100 1 none) none (some 105) true 3
      = some 100 ∧ (100 : ℚ) < 105 := by
  have hev : get_price_adjusted_to_ticker cfgA [] (MMOrder.mk Side.buy 100 1 none) none
      (some 105) true 3 = some 100 := by
    norm_num [get_price_adjusted_to_ticker, get_other_order_prices, tickerLoop,
      round2, round_eq, cfgA, MMOrder.side, MMOrder.price, buy_beq_buy]
  exact ⟨hev, ticker_adjusted_buy_below_ticker cfgA [] (MMOrder.mk Side.buy 100 1 none)
    none 105 true 3 100 rfl (by norm_num [cfgA]) hev⟩

/-- With no opposite linked, `get_price_adjusted_to_spread` returns a
`round2` image, hence a two-decimal value (the clamp `op.price +
min_profit`, which need not be two-decimal, is skipped). -/
theorem spread_adj_2dp (cfg : MMConfig) (bid ask : ℚ) (o : MMOrder)
    (spreadArg : Option ℚ) (aggressive : Bool) (amountArg : Option ℚ)
    (factor : ℚ) (min_profit : Option ℚ) (h_op : o.opOrder = none) :
    round2 (get_price_adjusted_to_spread cfg bid ask o spreadArg aggressive amountArg factor min_profit)
      = get_price_adjusted_to_spread cfg bid ask o spreadArg aggressive amountArg factor min_profit := by
  rw [get_price_adjusted_to_spread]
  case x_3 =>
    intro op mp h1 _
    rw [h_op] at h1
    exact Option.noConfusion h1
  set a := (if amountArg.getD 0 = 0 then
      get_amount_above_spread cfg bid ask o
        (some (if spreadArg.getD 0 = 0 then (if aggressive then cfg.min_spread else cfg.max_spread)
          else spreadArg.getD 0))
    else amountArg.getD 0) with ha
  by_cases hz : a ≠ 0
  · rw [if_pos hz]
    exact round2_round2 _
  · rw [if_neg hz]
    exact round2_round2 _

/-- On exit of the inner `while` loop every peer is strictly more than
`2·step` away from the returned price. -/
theorem adjLoop_sep (other_prices : List ℚ) (step : ℚ) (increment : Bool) :
    ∀ fuel p res, adjLoop other_prices step increment fuel p = some res →
      ∀ x ∈ other_prices, x < res - step * 2 ∨ res + step * 2 < x := by
  intro fuel
  induction fuel with
  | zero =>
    intro p res h
    cases h
  | succ n ih =>
    intro p res h
    rw [adjLoop] at h
    by_cases hc : ∃ x ∈ other_prices,
        round2 (if increment then p + step else p + step) - step * 2 ≤ x ∧
        x ≤ round2 (if increment then p + step else p + step) + step * 2
    · rw [if_pos hc] at h
      exact ih _ res h
    · rw [if_neg hc] at h
      cases h
      push_neg at hc
      intro x hx
      rcases lt_or_ge x (round2 (if increment then p + step else p + step) - step * 2) with h1 | h1
      · exact Or.inl h1
      · exact Or.inr (hc x hx h1)

/-- `adj_price` from a two-decimal start: every peer ends at least
`2·step` away from the returned price (equality exactly at the window
edge is possible when the entry test already fails). -/
theorem adj_price_sep (other_prices : List ℚ) (step : ℚ) (increment : Bool)
    (fuel : ℕ) (p res : ℚ) (h2dp : round2 p = p)
    (h : adj_price other_prices step increment fuel p = some res) :
    ∀ x ∈ other_prices, x ≤ res - step * 2 ∨ res + step * 2 ≤ x := by
  rw [adj_price] at h
  by_cases hc : ∃ x ∈ other_prices, p - step * 2 < x ∧ x < p + step * 2
  · rw [if_pos hc] at h
    intro x hx
    rcases adjLoop_sep other_prices step increment fuel (round2 p) res h x hx with h1 | h1
    · exact Or.inl (le_of_lt h1)
    · exact Or.inr (le_of_lt h1)
  · rw [if_neg hc] at h
    rw [h2dp] at h
    cases h
    push_neg at hc
    intro x hx
    by_cases hle : x ≤ p - step * 2
    · exact Or.inl hle
    · exact Or.inr (hc x hx (not_le.mp hle))

/-- Claim C5 (amended): for a BUY order with no opposite linked, the
price returned by `get_price_adjusted_to_other_prices` (default peer
list) differs from every other buy peer price by at least `2·step`. -/
theorem other_prices_buy_separation (cfg : MMConfig) (bid ask : ℚ) (r : Registry)
    (o : MMOrder) (aggressive : Bool) (step mp : ℚ) (fuel : ℕ) (res : ℚ)
    (h_side : o.side = Side.buy) (h_op : o.opOrder = none)
    (h : get_price_adjusted_to_other_prices cfg bid ask r o none aggressive step (some mp) fuel
      = some res) :
    ∀ x ∈ peerPrices r o none, x ≤ res - step * 2 ∨ res + step * 2 ≤ x := by
  have h2dp := spread_adj_2dp cfg bid ask o none aggressive none (4/5) (some mp) h_op
  simp only [get_price_adjusted_to_other_prices] at h
  cases hpp : peerPrices r o none with
  | nil =>
    intro x hx
    simp at hx
  | cons a as =>
    rw [hpp] at h
    simp only [h_side] at h
    intro x hx
    split_ifs at h with h1 h2
    · exact adj_price_sep _ _ _ _ _ _ h2dp h x hx
    · exact adj_price_sep _ _ _ _ _ _ h2dp h x hx
    · exact adj_price_sep _ _ _ _ _ _ h2dp h x hx

/-- Claim C5 counterexample: for a SELL order the default peer list is
built from BUY orders, so with no buys tracked the function returns the
spread-adjusted price unchanged — here exactly equal to the other
tracked sell's price 100.02, at distance 0, not more than `2·step`. -/
theorem other_prices_sell_uses_buys_cex :
    get_price_adjusted_to_other_prices cfgA (9995/100) 0 cexRegistry cexSellOrder none
      true (1/20) (some (1/100)) 5 = some (5001/50) ∧
    regLookup cexRegistry 2 = some (MMOrder.mk Side.sell (5001/50) 1 none) ∧
    ¬ ((5001/50 : ℚ) ≤ 5001/50 - (1/20) * 2 ∨ (5001/50 : ℚ) + (1/20) * 2 ≤ 5001/50) := by
  refine ⟨?_, rfl, by norm_num⟩
  norm_num [get_price_adjusted_to_other_prices, peerPrices, buyOrders,
    get_price_adjusted_to_spread, get_amount_above_spread, cexRegistry, cexSellOrder,
    cfgA, round2, round_eq, MMOrder.side, MMOrder.price, MMOrder.opOrder,
    sell_beq_buy, sell_beq_sell]

/-- Witness for the amended C5: buy at 100 (ask 101, aggressive spread
0.05) lands at 100.76; the only other buy peer 100.90 is `≥ 2·step`
away. -/
theorem other_prices_buy_separation_witness :
    get_price_adjusted_to_other_prices cfgA 0 101 rW (MMOrder.mk Side.buy 100 1 none) none
      true (1/20) (some (1/100)) 5 = some (2519/25) ∧
    ((1009/10 : ℚ) ≤ 2519/25 - (1/20) * 2 ∨ (2519/25 : ℚ) + (1/20) * 2 ≤ 1009/10) := by
  have hev : get_price_adjusted_to_other_prices cfgA 0 101 rW (MMOrder.mk Side.buy 100 1 none)
      none true (1/20) (some (1/100)) 5 = some (2519/25) := by
    norm_num [get_price_adjusted_to_other_prices, peerPrices, buyOrders,
      get_price_adjusted_to_spread, get_amount_above_spread, adj_price, adjLoop, rW,
      cfgA, round2, round_eq, MMOrder.side, MMOrder.price, MMOrder.opOrder,
      buy_beq_buy, buy_beq_sell, List.insertionSort, List.orderedInsert]
  refine ⟨hev, ?_⟩
  exact other_prices_buy_separation cfgA 0 101 rW (MMOrder.mk Side.buy 100 1 none)
    true (1/20) (1/100) 5 (2519/25) rfl rfl hev (1009/10)
    (by norm_num [peerPrices, buyOrders, rW, MMOrder.side, MMOrder.price, buy_beq_buy,
      List.insertionSort, List.orderedInsert])

theorem side_eq_of_beq (a b : Side) (h : (a == b) = true) : a = b := by
  cases a <;> cases b <;> revert h <;> decide

theorem side_ne_of_beq_false (a b : Side) (h : (a == b) = false) : a ≠ b := by
  cases a <;> cases b <;> revert h <;> decide

/-- Claim C2 (amended): `register_op_order` DOES preserve the side
invariant — a successful registration on an order whose incoming
argument satisfies the invariant stores an opposite of the other side
(cross-side stored directly, same-side replacement inherits the
incoming order's own opposite). The registry invariant still fails
because `place_order` bypasses this method (see the counterexample). -/
theorem register_op_order_keeps_sides (o other o2 : MMOrder)
    (hother : ∀ q, other.opOrder = some q → q.side ≠ other.side)
    (h : register_op_order o other = .ok o2) :
    ∀ q, o2.opOrder = some q → q.side ≠ o2.side := by
  rw [register_op_order] at h
  by_cases h1 : (other.side == o.side && !other.opOrder.isNone) = true
  · rw [if_pos h1] at h
    cases h
    intro q hq
    rw [withOp_opOrder] at hq
    rw [withOp_side]
    have hside : other.side = o.side :=
      side_eq_of_beq _ _ (Bool.and_eq_true_iff.mp h1).1
    rw [← hside]
    exact hother q hq
  · rw [if_neg h1] at h
    by_cases h2 : (!(other.side == o.side)) = true
    · rw [if_pos h2] at h
      cases h
      intro q hq
      rw [withOp_opOrder] at hq
      injection hq with hq2
      subst hq2
      rw [withOp_side]
      exact side_ne_of_beq_false _ _ (by simpa using h2)
    · rw [if_neg h2] at h
      cases h

/-- Witness for the amended C2: registering a same-side replacement
(buy at 101 whose opposite is a sell at 99) onto a buy at 100 inherits
the sell, whose side differs from the receiving buy's side. -/
theorem register_op_order_keeps_sides_witness :
    (MMOrder.mk Side.sell 99 1 none).side
      ≠ ((MMOrder.mk Side.buy 100 1 none).withOp
          (some (MMOrder.mk Side.sell 99 1 none))).side :=
  register_op_order_keeps_sides (MMOrder.mk Side.buy 100 1 none)
    (MMOrder.mk Side.buy 101 1 (some (MMOrder.mk Side.sell 99 1 none)))
    ((MMOrder.mk Side.buy 100 1 none).withOp (some (MMOrder.mk Side.sell 99 1 none)))
    (by intro q hq; injection hq with hq2; subst hq2; decide)
    rfl (MMOrder.mk Side.sell 99 1 none) rfl

/-- Claim C1 (code-bug evidence): with the tracked sell stopped
(`stop_amount = 285 ≥ ticker 284.50`), `shift_orders` returns an empty
replacement list and leaves the registry and fills unchanged — the
first sell stop check only records the order in the never-consumed
`cancels` list and skips it, so the cancel/replace branch further down
is unreachable. -/
theorem shift_orders_stop_is_dead :
    shift_orders cfgA ctxStop stStop [] =
      (.ok (some []), ⟨[(1, s305)], [], some (569/2), 1⟩) := by
  norm_num [shift_orders, ordersSync, syncFills, adoptOrders, shiftFold, stopHit,
    stop_amount, cfgA, ctxStop, stStop, s305, b300, MMOrder.side, MMOrder.price,
    MMOrder.opOrder, sell_beq_sell, sell_beq_buy]

/-- Claim C2 counterexample: starting from an empty registry, seed one
buy exactly as the main loop does, observe one ticker, then let the
ticker move: the shifting pass cancels the buy and registers a
replacement whose `op_order` is the cancelled SAME-SIDE buy (the
constructor stores `op_order` directly, bypassing `register_op_order`),
so the registry invariant `opposite.side ≠ side` fails on a reachable
state. -/
theorem shift_orders_same_side_opposite_cex :
    regInvariant (place_order cfgA ctxSeed st0 100 1 Side.buy none true true true true false).2.registry ∧
    ¬ regInvariant (shift_orders cfgA ctxT105
        ((shift_orders cfgA ctxT300
          ((place_order cfgA ctxSeed st0 100 1 Side.buy none true true true true false).2) []).2) []).2.registry := by
  have hseed : place_order cfgA ctxSeed st0 100 1 Side.buy none true true true true false
      = (.placed (MMOrder.mk Side.buy (2518/25) (100/101) none),
         ⟨[(1, MMOrder.mk Side.buy (2518/25) (100/101) none)], [], none, 2⟩) := by
    norm_num [place_order, position_size, buyCount, sellCount, buyOrders, sellOrders,
      lowest_open_order, get_price_adjusted_to_other_prices, peerPrices,
      get_price_adjusted_to_spread, get_amount_above_spread, get_price_adjusted_to_ticker,
      get_other_order_prices, tickerLoop, adj_price, adjLoop, postOrder, regInsert,
      round2, round_eq, cfgA, ctxSeed, st0, MMOrder.side, MMOrder.price, MMOrder.size,
      MMOrder.opOrder, MMOrder.withPrice, buy_beq_buy, buy_beq_sell, sell_beq_buy]
  have hs1 : shift_orders cfgA ctxT300
      (⟨[(1, MMOrder.mk Side.buy (2518/25) (100/101) none)], [], none, 2⟩ : MMState) []
      = (.ok (some []),
         ⟨[(1, MMOrder.mk Side.buy (2518/25) (100/101) none)], [], some 300, 2⟩) := by
    norm_num [shift_orders, ordersSync, syncFills, adoptOrders, cfgA, ctxT300]
  have hs2 : shift_orders cfgA ctxT105
      (⟨[(1, MMOrder.mk Side.buy (2518/25) (100/101) none)], [], some 300, 2⟩ : MMState) []
      = (.ok (some [some (MMOrder.mk Side.buy (1009/10) (100/101)
            (some (MMOrder.mk Side.buy (2518/25) (100/101) none)))]),
         ⟨[(2, MMOrder.mk Side.buy (1009/10) (100/101)
            (some (MMOrder.mk Side.buy (2518/25) (100/101) none)))], [], some 105, 3⟩) := by
    norm_num [shift_orders, ordersSync, syncFills, adoptOrders, shiftFold, stopHit,
      stop_amount, cancelAndReplace, cancel_order, place_order, position_size,
      buyCount, sellCount, buyOrders, sellOrders, lowest_open_order, regLookup, regErase,
      regInsert, get_price_adjusted_to_other_prices, peerPrices,
      get_price_adjusted_to_spread, get_amount_above_spread, get_price_adjusted_to_ticker,
      get_other_order_prices, tickerLoop, adj_price, adjLoop, postOrder,
      round2, round_eq, cfgA, ctxT105, MMOrder.side, MMOrder.price, MMOrder.size,
      MMOrder.opOrder, MMOrder.withPrice, buy_beq_buy, buy_beq_sell, sell_beq_buy,
      List.insertionSort, List.orderedInsert]
  constructor
  · rw [hseed]
    intro kv hkv
    simp only [List.mem_singleton] at hkv
    subst hkv
    rfl
  · rw [hseed]
    simp only []
    rw [hs1]
    simp only []
    rw [hs2]
    intro hinv
    have h2 := hinv (2, MMOrder.mk Side.buy (1009/10) (100/101)
      (some (MMOrder.mk Side.buy (2518/25) (100/101) none))) (by simp)
    simp only [oppositeOkB, MMOrder.opOrder, MMOrder.side] at h2
    exact absurd h2 (by decide)
